import Mathlib

/-
Shallow embedding of the pyxs XenStore client library.

Byte strings are modelled as `List Nat` (each element a byte value).
Python exceptions are modelled by an error type and `Except` /
`Option Err` results.  Functions are translated from the source files
`pyxs/_internal.py`, `pyxs/helpers.py`, `pyxs/connection.py` and
`pyxs/client.py`; each definition's doc comment names the source it
embeds.
-/

/-- Errors raised by the embedded code.  `valueError` is Python's
`ValueError`; `xsError eno` is the `PyXSError` carrying a numeric errno
raised for a remote `ERROR` response; `ackError p` is the
`PyXSError(payload)` raised by `Client.ack` on a non-`OK` payload. -/
inductive Err
  | valueError
  | invalidPayload
  | invalidOperation
  | unexpectedPacket
  | xsError (eno : Nat)
  | ackError (payload : List Nat)
  | connectionError
deriving DecidableEq, Repr

deriving instance DecidableEq for Except

/-- `pyxs._internal.Packet`: namedtuple with fields
`op rq_id tx_id size payload`. -/
structure Packet where
  op : Nat
  rq_id : Nat
  tx_id : Nat
  size : Nat
  payload : List Nat
deriving DecidableEq, Repr

/-- `pyxs._internal.Op`: the 21 recognized operation codes
(0..19 and 128). -/
def OpList : List Nat :=
  [0, 1, 2, 3, 4, 5, 6, 7, 8, 9, 10, 11, 12, 13, 14, 15, 16, 17, 18, 19, 128]

def Op_DEBUG : Nat := 0
def Op_READ : Nat := 2
def Op_TRANSACTION_END : Nat := 7
def Op_WATCH_EVENT : Nat := 15
def Op_ERROR : Nat := 16

/-- `Packet.__new__` (`pyxs/_internal.py`): payloads longer than 4096
bytes raise `InvalidPayload`; afterwards, an op not in `Op` raises
`InvalidOperation`; otherwise the tuple
`(op, rq_id, tx_id or 0, len(payload), payload)` is built.  `tx_id` is
a plain `Nat` here, on which Python's `tx_id or 0` is the identity
(`None` callers default to `0`). -/
def Packet.build (op : Nat) (payload : List Nat) (rq_id : Nat) (tx_id : Nat) :
    Except Err Packet :=
  if payload.length > 4096 then .error .invalidPayload
  else if op ∉ OpList then .error .invalidOperation
  else .ok ⟨op, rq_id, tx_id, payload.length, payload⟩

/-- `_rq_id %= sys.maxsize` reduces modulo `sys.maxsize`, which is
`2^63 - 1` for CPython on a 64-bit platform. -/
def sys_maxsize : Int := 9223372036854775807

/-- `pyxs._internal.next_rq_id`: increments the module-global counter,
reduces it modulo `sys.maxsize` and returns it.  The state (the value
of `_rq_id`, initially `-1`) is passed explicitly. -/
def next_rq_id (s : Int) : Int × Int :=
  let s' := (s + 1) % sys_maxsize
  (s', s')

/-- Counter state after `n` calls to `next_rq_id`
(`_rq_id = -1` initially). -/
def rqIdState : Nat → Int
  | 0 => -1
  | n + 1 => (next_rq_id (rqIdState n)).1

/-- The request id returned by the `n`-th call (0-indexed). -/
def rqIdValue (n : Nat) : Int := rqIdState (n + 1)

/-- A byte allowed in a path: ASCII alphanumerics and the bytes dash, slash,
underscore, at-sign. -/
def pathCharOk (b : Nat) : Bool :=
  decide (97 ≤ b ∧ b ≤ 122) || decide (65 ≤ b ∧ b ≤ 90) ||
    decide (48 ≤ b ∧ b ≤ 57) || b == 45 || b == 47 || b == 95 || b == 64

/-- Removes one trailing occurrence of byte `b`, if present. -/
def stripTrailing (b : Nat) (s : List Nat) : List Nat :=
  if s.getLast? == some b then s.dropLast else s

/-- Python `re.match of the path pattern (the class of path bytes,
then an optional NUL, then the dollar anchor)`: one or more
path characters, an optional trailing NUL, then `$` — which in Python
matches at the end of the string or just before one trailing newline. -/
def pathRegexMatch (p : List Nat) : Bool :=
  let s := stripTrailing 0 (stripTrailing 10 p)
  !s.isEmpty && s.all pathCharOk

/-- Python `b"//" in path`. -/
def hasDoubleSlash : List Nat → Bool
  | [] => false
  | [_] => false
  | a :: b :: rest => (a == 47 && b == 47) || hasDoubleSlash (b :: rest)

/-- `posixpath.abspath(path)` joins `path` with the current working
directory, so it returns a non-empty string for every input; used as a
condition it is always true. -/
def posixpath_abspath_truthy (_p : List Nat) : Bool := true

/-- `pyxs.helpers.validate_path`: `true` means the path is accepted
(the function returns without raising `InvalidPath`).
`max_len = 3072 if posixpath.abspath(path) else 2048`; the regex and
length are checked first, then the trailing-slash / double-slash
check on the original path. -/
def validate_path (path : List Nat) : Bool :=
  let max_len : Nat := if posixpath_abspath_truthy path then 3072 else 2048
  if !(pathRegexMatch path && decide (path.length ≤ max_len)) then false
  else if (decide (1 < path.length) && path.getLast? == some 47) ||
      hasDoubleSlash path then false
  else true

/-- A permission mode letter: one of `w r b n`. -/
def modeLetter (b : Nat) : Bool := b == 119 || b == 114 || b == 98 || b == 110

/-- A decimal digit byte `[0-9]` (`\d` in a bytes regex). -/
def digitByte (b : Nat) : Bool := decide (48 ≤ b ∧ b ≤ 57)

/-- Python `re.match(b"[wrbn]\d+", perm)`: anchored at the start only,
so it succeeds as soon as the first byte is a mode letter and the
second byte is a digit, whatever follows. -/
def permMatch (perm : List Nat) : Bool :=
  match perm with
  | m :: d :: _ => modeLetter m && digitByte d
  | _ => false

/-- `pyxs.helpers.validate_perms`: `true` means every permission in
the list is accepted (no `InvalidPermission` raised). -/
def validate_perms (perms : List (List Nat)) : Bool := perms.all permMatch

/-- The claim's reading of the permission format: the whole string
matches `[wrbn][0-9]+`, i.e. one mode letter, one or more digits, and
nothing after the digits. -/
def permFullMatchSpec (perm : List Nat) : Bool :=
  match perm with
  | m :: rest => modeLetter m && !rest.isEmpty && rest.all digitByte
  | [] => false

/-- A byte allowed by `_re_7bit_ascii`: `[\x00\x20-\x7f]`. -/
def asciiByteOk (b : Nat) : Bool := b == 0 || decide (32 ≤ b ∧ b ≤ 127)

/-- Python `_re_7bit_ascii.match(arg)` with pattern
`b"^[\x00\x20-\x7f]+$"`: one or more allowed bytes, then `$`, which
matches at the end or just before one trailing newline. -/
def re7bitMatch (arg : List Nat) : Bool :=
  let s := stripTrailing 10 arg
  !s.isEmpty && s.all asciiByteOk

/-- The claim's reading of the 7-bit check, written declaratively:
every byte of the argument lies in `{0} ∪ [0x20, 0x7f]`. -/
def specArgAllowed (arg : List Nat) : Prop :=
  ∀ b ∈ arg, b = 0 ∨ (32 ≤ b ∧ b ≤ 127)

/-- What `_re_7bit_ascii.match` actually accepts, written
declaratively: a non-empty all-allowed string, possibly followed by a
single trailing newline byte. -/
def specArgLenientOk (arg : List Nat) : Prop :=
  (arg ≠ [] ∧ specArgAllowed arg) ∨
    (∃ core, arg = core ++ [10] ∧ core ≠ [] ∧ specArgAllowed core)

/-- Modelled from the spec: `pyxs.helpers.error` is imported by
`pyxs/client.py` but absent from the `helpers.py` in this tree.
Spec §4.5: an `ERROR` payload "is a POSIX errno name (ASCII,
NUL-terminated, e.g. `ENOENT\0`). Map to the numeric errno and raise";
§7 names `ENOENT`, `EACCES`, `EAGAIN`, `EEXIST`, `EINVAL`, `EPERM`,
`EALREADY`.  Linux errno numbers; an unknown name defaults to
`EINVAL`. -/
def errnoOf (name : List Nat) : Nat :=
  if name == [69, 80, 69, 82, 77] then 1                    -- EPERM
  else if name == [69, 78, 79, 69, 78, 84] then 2           -- ENOENT
  else if name == [69, 65, 71, 65, 73, 78] then 11          -- EAGAIN
  else if name == [69, 65, 67, 67, 69, 83] then 13          -- EACCES
  else if name == [69, 69, 88, 73, 83, 84] then 17          -- EEXIST
  else if name == [69, 73, 78, 86, 65, 76] then 22          -- EINVAL
  else if name == [69, 65, 76, 82, 69, 65, 68, 89] then 114 -- EALREADY
  else 22

/-- Python `payload.rstrip(NUL)`: removes every trailing NUL byte. -/
def rstripNul (s : List Nat) : List Nat :=
  (s.reverse.dropWhile (· == 0)).reverse

/-- The packet `Client.execute_command` builds: the 7-bit check over
all arguments comes first (raising `ValueError`), then
`Packet(op, concatenated args, rq_id, tx_id)`. -/
def builtPacket (op : Nat) (args : List (List Nat)) (rq_id tx_id : Nat) :
    Except Err Packet :=
  if !(args.all re7bitMatch) then .error .valueError
  else Packet.build op (List.flatten args) rq_id tx_id

/-- `Client.execute_command` for a single request/response exchange:
`resp` is the packet the router hands back for this request.  An
`ERROR` response raises `error(payload[:-1])`; an op or transaction-id
mismatch raises `UnexpectedPacket`; otherwise the payload is returned
with `rstrip(NUL)` applied. -/
def execute_command (op : Nat) (args : List (List Nat)) (tx_id rq_id : Nat)
    (resp : Packet) : Except Err (List Nat) :=
  match builtPacket op args rq_id tx_id with
  | .error e => .error e
  | .ok _ =>
    if resp.op == Op_ERROR then
      .error (.xsError (errnoOf resp.payload.dropLast))
    else if resp.op != op || resp.tx_id != tx_id then .error .unexpectedPacket
    else .ok (rstripNul resp.payload)

/-- `Client.ack`: runs `execute_command` and raises
`PyXSError(payload)` unless the payload equals `b"OK"`. -/
def Client_ack (op : Nat) (args : List (List Nat)) (tx_id rq_id : Nat)
    (resp : Packet) : Except Err Unit :=
  match execute_command op args tx_id rq_id resp with
  | .error e => .error e
  | .ok payload => if payload == [79, 75] then .ok () else .error (.ackError payload)

/-- `Client.commit`: `ack(Op.TRANSACTION_END, b"T" + NUL)`; a caught
`PyXSError` whose first argument equals `errno.EAGAIN` (11) yields
`False`, any other error is re-raised, success yields `True`; the
`finally` clause resets `tx_id` to 0 on every path (second component
of the result). -/
def commit (tx_id rq_id : Nat) (resp : Packet) : Except Err Bool × Nat :=
  (match Client_ack Op_TRANSACTION_END [[84, 0]] tx_id rq_id resp with
   | .ok _ => .ok true
   | .error (.xsError eno) =>
     if eno == 11 then .ok false else .error (.xsError eno)
   | .error e => .error e,
   0)

/-- Little-endian 4-byte encoding of a 32-bit word, as
`struct.pack("IIII", ...)` produces for each field. -/
def toLE32 (n : Nat) : List Nat :=
  [n % 256, n / 256 % 256, n / 65536 % 256, n / 16777216 % 256]

/-- `PacketConnection.send`: packs the 16-byte header
`op | rq_id | tx_id | size` with `struct` (which rejects values
outside `[0, 2^32)`) and emits header then payload. -/
def sendBytes (p : Packet) : Option (List Nat) :=
  if p.op < 4294967296 ∧ p.rq_id < 4294967296 ∧ p.tx_id < 4294967296 ∧
      p.size < 4294967296 then
    some (toLE32 p.op ++ (toLE32 p.rq_id ++ (toLE32 p.tx_id ++
      (toLE32 p.size ++ p.payload))))
  else none

/-- Reads one little-endian 32-bit word from the stream. -/
def readLE32 : List Nat → Option (Nat × List Nat)
  | a :: b :: c :: d :: rest =>
    some (a + 256 * b + 65536 * c + 16777216 * d, rest)
  | _ => none

/-- `PacketConnection.recv`: reads the 16-byte header exactly, unpacks
the four words, reads exactly `size` payload bytes (no read at all
when `size == 0`), and rebuilds the packet through the `Packet`
constructor.  A short stream is a connection error (the read-exactly
loop would block or report a reset). -/
def recvPacket (stream : List Nat) : Except Err Packet :=
  match readLE32 stream with
  | none => .error .connectionError
  | some (op, r1) =>
    match readLE32 r1 with
    | none => .error .connectionError
    | some (rq_id, r2) =>
      match readLE32 r2 with
      | none => .error .connectionError
      | some (tx_id, r3) =>
        match readLE32 r3 with
        | none => .error .connectionError
        | some (size, rest) =>
          if size == 0 then Packet.build op [] rq_id tx_id
          else if rest.length < size then .error .connectionError
          else Packet.build op (rest.take size) rq_id tx_id

/-- `posixpath.dirname`: everything up to the final slash; a head made
only of slashes is kept as is, otherwise trailing slashes are
stripped. -/
def pyDirname (p : List Nat) : List Nat :=
  let i : Nat :=
    match p.reverse.findIdx? (· == 47) with
    | some k => p.length - k
    | none => 0
  let head := p.take i
  if head.isEmpty || head == List.replicate head.length 47 then head
  else (head.reverse.dropWhile (· == 47)).reverse

/-- The inner loop of `Monitor.wait`:
`while wpath and (wpath, token) not in self.unwatch_queue:
    wpath = posixpath.dirname(wpath)`.
`ws` is the monitor's active watch set.  The loop is modelled with
explicit fuel; `none` means the loop has not terminated within `fuel`
iterations (so `none` for every fuel is divergence). -/
def waitLoop (ws : List (List Nat × List Nat)) (token : List Nat) :
    Nat → List Nat → Option (List Nat)
  | 0, _ => none
  | fuel + 1, wpath =>
    if wpath = [] ∨ (wpath, token) ∈ ws then some wpath
    else waitLoop ws token fuel (pyDirname wpath)

/-- The yield decision of `Monitor.wait` with `unwatched=False`:
the event is yielded exactly when the loop terminates on a non-empty
`wpath`; `none` means `wait` is still looping. -/
def waitYields (ws : List (List Nat × List Nat)) (path token : List Nat)
    (fuel : Nat) : Option Bool :=
  match waitLoop ws token fuel path with
  | none => none
  | some w => some (!w.isEmpty)

/-- `dict.get`-with-default view of `Router.monitors`
(a `defaultdict(list)` keyed by token). -/
def ddGet (m : List (List Nat × List Nat)) (t : List Nat) : List Nat :=
  (List.lookup t m).getD []

/-- Accessing `self.monitors[token]` on a `defaultdict(list)` inserts
an empty list for a missing key. -/
def ensureKey (m : List (List Nat × List Nat)) (t : List Nat) :
    List (List Nat × List Nat) :=
  match List.lookup t m with
  | some _ => m
  | none => m ++ [(t, [])]

/-- Python `list.remove(x)`: removes the first occurrence, `none` when
`x` is absent (where Python raises `ValueError`). -/
def listRemoveFirst : List Nat → Nat → Option (List Nat)
  | [], _ => none
  | x :: xs, y =>
    if x == y then some xs else (listRemoveFirst xs y).map (x :: ·)

/-- Replaces the value stored under key `t`. -/
def setKey : List (List Nat × List Nat) → List Nat → List Nat →
    List (List Nat × List Nat)
  | [], t, v => [(t, v)]
  | (k, w) :: rest, t, v =>
    if k == t then (t, v) :: rest else (k, w) :: setKey rest t v

/-- `Router.unsubscribe(token, monitor)`:
`self.monitors[token].remove(monitor)`.  The result pairs the raised
error (if any) with the subscriber map after the call; the
`defaultdict` access inserts an empty entry even when `remove`
raises. -/
def unsubscribe (m : List (List Nat × List Nat)) (t : List Nat) (mon : Nat) :
    Option Err × List (List Nat × List Nat) :=
  let m' := ensureKey m t
  let lst := (List.lookup t m').getD []
  match listRemoveFirst lst mon with
  | none => (some .valueError, m')
  | some lst' => (none, setKey m' t lst')

set_option maxRecDepth 4000

/- ------------------------------------------------------------------ -/
/- Helper lemmas                                                      -/
/- ------------------------------------------------------------------ -/

theorem opList_lt : ∀ x ∈ OpList, x < 4294967296 := by decide

theorem readLE32_toLE32 (n : Nat) (rest : List Nat) (h : n < 4294967296) :
    readLE32 (toLE32 n ++ rest) = some (n, rest) := by
  show some (n % 256 + 256 * (n / 256 % 256) + 65536 * (n / 65536 % 256) +
    16777216 * (n / 16777216 % 256), rest) = some (n, rest)
  have : n % 256 + 256 * (n / 256 % 256) + 65536 * (n / 65536 % 256) +
      16777216 * (n / 16777216 % 256) = n := by omega
  rw [this]

theorem getLast?_replicate97 (n : Nat) :
    (List.replicate (n + 1) 97).getLast? = some 97 := by
  rw [List.replicate_succ']
  exact List.getLast?_concat _

theorem all_pathCharOk_replicate (n : Nat) :
    (List.replicate n 97).all pathCharOk = true := by
  rw [List.all_eq_true]
  intro b hb
  rw [List.eq_of_mem_replicate hb]
  decide

theorem hasDoubleSlash_rep97 (n : Nat) :
    hasDoubleSlash (97 :: List.replicate n 97) = false := by
  induction n with
  | zero => decide
  | succ m ih =>
    rw [List.replicate_succ]
    show ((97 == 47 && 97 == 47) || hasDoubleSlash (97 :: List.replicate m 97)) = false
    rw [ih]
    decide

theorem rqIdState_succ_eq (n : Nat) :
    rqIdState (n + 1) = (n : Int) % sys_maxsize := by
  induction n with
  | zero => decide
  | succ m ih =>
    show (next_rq_id (rqIdState (m + 1))).1 = ((m : Int) + 1) % sys_maxsize
    rw [ih]
    show ((m : Int) % sys_maxsize + 1) % sys_maxsize = ((m : Int) + 1) % sys_maxsize
    conv_rhs => rw [Int.add_emod]
    norm_num

theorem waitLoop_root_none (fuel : Nat) :
    waitLoop [([47, 98], [116])] [116] fuel [47] = none := by
  induction fuel with
  | zero => rfl
  | succ m ih =>
    rw [waitLoop, if_neg (by decide)]
    have hd : pyDirname [47] = [47] := by decide
    rw [hd]
    exact ih

theorem waitLoop_slash_a_none (fuel : Nat) :
    waitLoop [([47, 98], [116])] [116] fuel [47, 97] = none := by
  cases fuel with
  | zero => rfl
  | succ m =>
    rw [waitLoop, if_neg (by decide)]
    have hd : pyDirname [47, 97] = [47] := by decide
    rw [hd]
    exact waitLoop_root_none m

theorem lookup_append_self (m : List (List Nat × List Nat)) (t : List Nat)
    (h : List.lookup t m = none) : List.lookup t (m ++ [(t, [])]) = some [] := by
  induction m with
  | nil => simp [List.lookup]
  | cons kv rest ih =>
    obtain ⟨k, w⟩ := kv
    rw [List.cons_append, List.lookup]
    rw [List.lookup] at h
    cases hb : (t == k) with
    | true => rw [hb] at h; simp at h
    | false =>
      rw [hb] at h
      simpa using ih h

theorem lookup_ensureKey (m : List (List Nat × List Nat)) (t : List Nat) :
    List.lookup t (ensureKey m t) = some (ddGet m t) := by
  rw [ensureKey, ddGet]
  cases h : List.lookup t m with
  | some v => simp [h]
  | none => simpa [h] using lookup_append_self m t h

theorem listRemoveFirst_of_not_mem (lst : List Nat) (mon : Nat)
    (h : mon ∉ lst) : listRemoveFirst lst mon = none := by
  induction lst with
  | nil => rfl
  | cons x xs ih =>
    rw [listRemoveFirst]
    rw [List.mem_cons, not_or] at h
    rw [if_neg (by simpa using fun he => h.1 he.symm), ih h.2]
    rfl

theorem head?_dropWhileNulZero (l : List Nat) :
    (l.dropWhile (· == 0)).head? ≠ some 0 := by
  induction l with
  | nil => simp
  | cons a tl ih =>
    rw [List.dropWhile_cons]
    by_cases h : a = 0
    · simpa [h] using ih
    · simp [h]

theorem rstripNul_no_trailing_nul (s : List Nat) :
    (rstripNul s).getLast? ≠ some 0 := by
  rw [rstripNul, List.getLast?_reverse]
  exact head?_dropWhileNulZero s.reverse

theorem asciiByteOk_iff (b : Nat) :
    asciiByteOk b = true ↔ (b = 0 ∨ (32 ≤ b ∧ b ≤ 127)) := by
  rw [asciiByteOk]
  simp [Bool.or_eq_true, beq_iff_eq, decide_eq_true_eq]

theorem re7bitMatch_iff (arg : List Nat) :
    re7bitMatch arg = true ↔ specArgLenientOk arg := by
  rcases List.eq_nil_or_concat arg with rfl | ⟨core, b, rfl⟩
  · constructor
    · intro h
      exact absurd h (by decide)
    · rintro (⟨hne, -⟩ | ⟨c, hc, -, -⟩)
      · exact absurd rfl hne
      · simp at hc
  · simp only [List.concat_eq_append]
    have hlast : (core ++ [b]).getLast? = some b := List.getLast?_concat _
    simp only [re7bitMatch]
    by_cases hb : b = 10
    · subst hb
      have hs : stripTrailing 10 (core ++ [10]) = core := by
        rw [stripTrailing, if_pos (by rw [hlast]; rfl), List.dropLast_concat]
      rw [hs]
      constructor
      · intro h
        rw [Bool.and_eq_true] at h
        refine Or.inr ⟨core, rfl, ?_, ?_⟩
        · intro hc
          subst hc
          simp at h
        · intro x hx
          exact (asciiByteOk_iff x).mp (List.all_eq_true.mp h.2 x hx)
      · rintro (⟨-, hall⟩ | ⟨c, hc, hne, hall⟩)
        · exact absurd (hall 10 (by simp)) (by norm_num)
        · have hcc : core = c := by
            have := congrArg List.dropLast hc
            simpa [List.dropLast_concat] using this
          subst hcc
          rw [Bool.and_eq_true]
          refine ⟨?_, ?_⟩
          · rcases core with - | ⟨x, xs⟩
            · exact absurd rfl hne
            · rfl
          · exact List.all_eq_true.mpr fun x hx => (asciiByteOk_iff x).mpr (hall x hx)
    · have hs : stripTrailing 10 (core ++ [b]) = core ++ [b] := by
        rw [stripTrailing, if_neg (by rw [hlast]; simp [hb])]
      rw [hs]
      constructor
      · intro h
        rw [Bool.and_eq_true] at h
        refine Or.inl ⟨by simp, ?_⟩
        intro x hx
        exact (asciiByteOk_iff x).mp (List.all_eq_true.mp h.2 x hx)
      · rintro (⟨-, hall⟩ | ⟨c, hc, -, -⟩)
        · rw [Bool.and_eq_true]
          refine ⟨by simp, ?_⟩
          exact List.all_eq_true.mpr fun x hx => (asciiByteOk_iff x).mpr (hall x hx)
        · have := congrArg List.getLast? hc
          rw [hlast, List.getLast?_concat] at this
          simp at this
          exact absurd this hb

theorem packetBuild_ne_valueError (op : Nat) (pl : List Nat) (rq tx : Nat) :
    Packet.build op pl rq tx ≠ .error .valueError := by
  rw [Packet.build]
  split_ifs <;> simp

/- ------------------------------------------------------------------ -/
/- Claim theorems                                                     -/
/- ------------------------------------------------------------------ -/

/-- C1 (code bug): for the event `(b"/a", b"t")` whose watch has been
removed (the active watch set being `{(b"/b", b"t")}`), the filter loop
in `Monitor.wait` never terminates — for every number of iterations the
loop is still running (`posixpath.dirname(b"/") == b"/"`), so instead
of dropping the event and continuing with the next one, `wait` hangs. -/
theorem c1_wait_filter_diverges (fuel : Nat) :
    waitYields [([47, 98], [116])] [47, 97] [116] fuel = none := by
  rw [waitYields, waitLoop_slash_a_none]

/-- C2 (code bug): `validate_path` accepts a relative path of 2049
bytes (2049 letters `a`, no leading slash), although its own comment,
docstring and the spec cap relative paths at 2048 bytes —
`posixpath.abspath(path)` is always truthy, so `max_len` is always
3072. -/
theorem c2_overlong_relative_path_accepted :
    validate_path (List.replicate 2049 97) = true ∧
    2048 < (List.replicate 2049 97).length ∧
    (List.replicate 2049 97).head? ≠ some 47 := by
  have e : (2049 : Nat) = 2048 + 1 := rfl
  have hlast : (List.replicate 2049 97).getLast? = some 97 := by
    rw [e]; exact getLast?_replicate97 2048
  have hs10 : stripTrailing 10 (List.replicate 2049 97) = List.replicate 2049 97 := by
    rw [stripTrailing, if_neg (by rw [hlast]; decide)]
  have hs0 : stripTrailing 0 (List.replicate 2049 97) = List.replicate 2049 97 := by
    rw [stripTrailing, if_neg (by rw [hlast]; decide)]
  have hregex : pathRegexMatch (List.replicate 2049 97) = true := by
    show (!(stripTrailing 0 (stripTrailing 10 (List.replicate 2049 97))).isEmpty &&
      (stripTrailing 0 (stripTrailing 10 (List.replicate 2049 97))).all pathCharOk) = true
    rw [hs10, hs0, all_pathCharOk_replicate, e, List.replicate_succ, List.isEmpty_cons]
    decide
  refine ⟨?_, by rw [List.length_replicate]; omega, ?_⟩
  · rw [validate_path]
    rw [posixpath_abspath_truthy, if_pos rfl]
    rw [hregex, List.length_replicate, hlast]
    rw [e, List.replicate_succ, hasDoubleSlash_rep97]
    decide
  · rw [e, List.replicate_succ, List.head?_cons]
    decide

/-- C3 (confirmed): for every packet with a recognized op, `rq_id` and
`tx_id` below `2^32`, a payload of at most 4096 bytes and `size` equal
to the payload length, decoding (`PacketConnection.recv`) the bytes
produced by encoding (`PacketConnection.send`) yields the packet
back. -/
theorem c3_codec_roundtrip (p : Packet) (hop : p.op ∈ OpList)
    (hrq : p.rq_id < 4294967296) (htx : p.tx_id < 4294967296)
    (hlen : p.payload.length ≤ 4096) (hsz : p.size = p.payload.length) :
    ∃ bs, sendBytes p = some bs ∧ recvPacket bs = .ok p := by
  obtain ⟨op, rq, tx, sz, pl⟩ := p
  simp only at hsz hlen hop hrq htx ⊢
  subst hsz
  have hop32 : op < 4294967296 := opList_lt _ hop
  have hsz32 : pl.length < 4294967296 := by omega
  refine ⟨_, by rw [sendBytes, if_pos ⟨hop32, hrq, htx, hsz32⟩], ?_⟩
  simp only [recvPacket, readLE32_toLE32 op _ hop32, readLE32_toLE32 rq _ hrq,
    readLE32_toLE32 tx _ htx, readLE32_toLE32 pl.length _ hsz32]
  by_cases h0 : pl.length = 0
  · obtain rfl : pl = [] := List.length_eq_zero.mp h0
    simp [Packet.build, hop]
  · simp only [h0, beq_iff_eq, if_false, Nat.lt_irrefl, List.take_length,
      Bool.false_eq_true]
    rw [Packet.build, if_neg (by omega), if_neg (not_not_intro hop)]

/-- Witness for C3 at the packet `(READ, rq 5, tx 7, payload b"a\x00")`. -/
theorem c3_codec_roundtrip_witness :
    ∃ bs, sendBytes ⟨2, 5, 7, 2, [97, 0]⟩ = some bs ∧
      recvPacket bs = .ok ⟨2, 5, 7, 2, [97, 0]⟩ :=
  c3_codec_roundtrip ⟨2, 5, 7, 2, [97, 0]⟩ (by decide) (by decide) (by decide)
    (by decide) (by decide)

/-- C4 (code bug): the request-id counter is consecutive and distinct
only up to `sys.maxsize = 2^63 - 1`, not `2^32`: the call made when the
counter reaches `2^32` returns `2^32`, a value that does not fit in 32
bits (and cannot be packed into the `u32` header field). -/
theorem c4_rq_id_exceeds_32_bits :
    (∀ n : Nat, n < 9223372036854775807 → rqIdValue n = (n : Int)) ∧
    rqIdValue 4294967296 = 4294967296 ∧
    ¬ rqIdValue 4294967296 < 4294967296 := by
  have hcons : ∀ n : Nat, n < 9223372036854775807 → rqIdValue n = (n : Int) := by
    intro n hn
    rw [rqIdValue, rqIdState_succ_eq]
    exact Int.emod_eq_of_lt (by positivity) (by rw [sys_maxsize]; exact_mod_cast hn)
  have h : rqIdValue 4294967296 = 4294967296 := hcons 4294967296 (by norm_num)
  exact ⟨hcons, h, by rw [h]; omega⟩

/-- Witness for C4: the 8th call returns 7. -/
theorem c4_rq_id_exceeds_32_bits_witness : rqIdValue 7 = 7 :=
  c4_rq_id_exceeds_32_bits.1 7 (by norm_num)

/-- C5 counterexample: unsubscribing a monitor that is not registered
(empty subscriber map) raises `ValueError` and changes the map (the
`defaultdict` access inserts an empty entry), contradicting the claim
that double-unsubscribe completes silently and leaves the map
unchanged. -/
theorem c5_double_unsubscribe_not_silent :
    (unsubscribe [] [116] 0).1 = some Err.valueError ∧
    (unsubscribe [] [116] 0).2 ≠ [] := by decide

/-- C5 (corrected): `Router.unsubscribe` on a monitor that is not (or
no longer) registered under the token raises `ValueError`
(`list.remove` on a list without the element), and the subscriber map
is left with an entry for the token inserted by the `defaultdict`
access. -/
theorem c5_unsubscribe_missing_raises (m : List (List Nat × List Nat))
    (t : List Nat) (mon : Nat) (h : mon ∉ ddGet m t) :
    unsubscribe m t mon = (some .valueError, ensureKey m t) := by
  rw [unsubscribe]
  rw [lookup_ensureKey]
  show (match listRemoveFirst ((some (ddGet m t)).getD []) mon with
    | none => (some Err.valueError, ensureKey m t)
    | some lst' => (none, setKey (ensureKey m t) t lst')) =
    (some Err.valueError, ensureKey m t)
  rw [Option.getD_some, listRemoveFirst_of_not_mem _ _ h]

/-- Witness for C5: monitor 2 is not registered under token `b"u"`. -/
theorem c5_unsubscribe_missing_raises_witness :
    unsubscribe [([116], [1])] [117] 2 =
      (some .valueError, ensureKey [([116], [1])] [117]) :=
  c5_unsubscribe_missing_raises [([116], [1])] [117] 2 (by decide)

/-- C6 counterexample: for a response payload `b"a\x00\x00"`,
`execute_command` returns `b"a"` (all trailing NULs stripped), not
`b"a\x00"` (all but the last) as the claim states. -/
theorem c6_strips_all_trailing_nuls :
    execute_command 2 [[47, 97, 0]] 0 5 ⟨2, 5, 0, 3, [97, 0, 0]⟩ = .ok [97] ∧
    execute_command 2 [[47, 97, 0]] 0 5 ⟨2, 5, 0, 3, [97, 0, 0]⟩ ≠ .ok [97, 0] := by
  decide

/-- C6 (corrected): for a matching non-`ERROR` response,
`execute_command` returns the response payload with ALL trailing NUL
bytes removed (`payload.rstrip(NUL)`); the returned value never ends
in a NUL byte. -/
theorem c6_exec_returns_rstripped_payload (op : Nat) (args : List (List Nat))
    (tx_id rq_id : Nat) (resp : Packet)
    (hargs : args.all re7bitMatch = true)
    (hlen : (List.flatten args).length ≤ 4096) (hop : op ∈ OpList)
    (hrop : resp.op = op) (herr : op ≠ Op_ERROR) (htx : resp.tx_id = tx_id) :
    execute_command op args tx_id rq_id resp = .ok (rstripNul resp.payload) ∧
    (rstripNul resp.payload).getLast? ≠ some 0 := by
  refine ⟨?_, rstripNul_no_trailing_nul _⟩
  have hbuild : Packet.build op (List.flatten args) rq_id tx_id =
      .ok ⟨op, rq_id, tx_id, (List.flatten args).length, List.flatten args⟩ := by
    rw [Packet.build, if_neg (show ¬ (List.flatten args).length > 4096 by omega),
      if_neg (not_not_intro hop)]
  rw [execute_command, builtPacket, hargs]
  simp only [Bool.not_true, Bool.false_eq_true, if_false]
  rw [hbuild]
  simp only [hrop, htx]
  rw [if_neg (show ¬ ((op == Op_ERROR) = true) by simpa using herr)]
  simp

/-- Witness for C6 at a READ response with payload `b"ba\x00\x00"`. -/
theorem c6_exec_returns_rstripped_payload_witness :
    execute_command 2 [[47, 97, 0]] 0 5 ⟨2, 5, 0, 4, [98, 97, 0, 0]⟩ =
      .ok (rstripNul [98, 97, 0, 0]) ∧
    (rstripNul [98, 97, 0, 0]).getLast? ≠ some 0 :=
  c6_exec_returns_rstripped_payload 2 [[47, 97, 0]] 0 5 ⟨2, 5, 0, 4, [98, 97, 0, 0]⟩
    (by decide) (by decide) (by decide) (by decide) (by decide) (by decide)

/-- C7 counterexample: for an unrecognized op (20) together with a
4097-byte payload, construction raises `InvalidPayload`, not
`InvalidOperation`, so "`InvalidOperation` exactly when op is not
recognized" fails: the payload check comes first. -/
theorem c7_both_invalid_gives_invalid_payload :
    Packet.build 20 (List.replicate 4097 32) 0 0 = .error .invalidPayload ∧
    20 ∉ OpList ∧
    Packet.build 20 (List.replicate 4097 32) 0 0 ≠ .error .invalidOperation := by
  have h : Packet.build 20 (List.replicate 4097 32) 0 0 = .error .invalidPayload := by
    rw [Packet.build, if_pos (by rw [List.length_replicate]; omega)]
  exact ⟨h, by decide, by rw [h]; simp⟩

/-- C7 (corrected): packet construction (a pure function, no I/O)
raises `InvalidPayload` exactly when the payload exceeds 4096 bytes
(4096 succeeds, 4097 fails), raises `InvalidOperation` exactly when
the payload is within bounds AND the op is unrecognized (the payload
check takes precedence), and on success the `size` field equals the
payload length. -/
theorem c7_packet_build_errors (op : Nat) (payload : List Nat) (rq tx : Nat) :
    (Packet.build op payload rq tx = .error .invalidPayload ↔
      4096 < payload.length) ∧
    (Packet.build op payload rq tx = .error .invalidOperation ↔
      (payload.length ≤ 4096 ∧ op ∉ OpList)) ∧
    (∀ p, Packet.build op payload rq tx = .ok p →
      p.size = p.payload.length ∧ p.payload = payload ∧ p.op = op) := by
  by_cases h1 : payload.length > 4096
  · rw [Packet.build, if_pos h1]
    refine ⟨by simp [h1], by simp; omega, by simp⟩
  · by_cases h2 : op ∉ OpList
    · rw [Packet.build, if_neg h1, if_pos h2]
      refine ⟨by simp; omega, by simp [h2]; omega, by simp⟩
    · rw [Packet.build, if_neg h1, if_neg h2]
      refine ⟨by simp; omega, by simp [h2], ?_⟩
      intro p hp
      cases hp
      exact ⟨rfl, rfl, rfl⟩

/-- Witness for C7: op 20 with empty payload gives `InvalidOperation`,
a 4097-byte payload gives `InvalidPayload`. -/
theorem c7_packet_build_errors_witness :
    Packet.build 20 [] 0 0 = .error .invalidOperation ∧
    Packet.build 2 (List.replicate 4097 32) 0 0 = .error .invalidPayload :=
  ⟨(c7_packet_build_errors 20 [] 0 0).2.1.mpr (by decide),
   (c7_packet_build_errors 2 (List.replicate 4097 32) 0 0).1.mpr
     (by rw [List.length_replicate]; omega)⟩

/-- C8 counterexample: the permission `b"w1x"` is accepted by
`validate_perms` although it does not match `[wrbn][0-9]+` in full —
the regex is anchored at the start only. -/
theorem c8_trailing_bytes_accepted :
    validate_perms [[119, 49, 120]] = true ∧
    permFullMatchSpec [119, 49, 120] = false := by decide

/-- C8 (corrected): `validate_perms` accepts a permission exactly when
it STARTS with one mode letter from `{w, r, b, n}` followed by at
least one decimal digit; anything after that first digit is not
inspected. -/
theorem c8_perm_anchored_start_only (perm : List Nat) :
    validate_perms [perm] = true ↔
      ∃ m d rest, perm = m :: d :: rest ∧ modeLetter m = true ∧
        digitByte d = true := by
  rcases perm with _ | ⟨m, _ | ⟨d, rest⟩⟩
  · constructor
    · intro h
      exact absurd h (by decide)
    · rintro ⟨m', d', rest', heq, -, -⟩
      simp at heq
  · constructor
    · intro h
      rw [show validate_perms [[m]] = (permMatch [m] && true) from rfl] at h
      rw [show permMatch [m] = false from rfl] at h
      simp at h
    · rintro ⟨m', d', rest', heq, -, -⟩
      simp at heq
  · rw [show validate_perms [m :: d :: rest] = (permMatch (m :: d :: rest) && true) from rfl]
    rw [show permMatch (m :: d :: rest) = (modeLetter m && digitByte d) from rfl]
    rw [Bool.and_true, Bool.and_eq_true]
    constructor
    · rintro ⟨hm, hd⟩
      exact ⟨m, d, rest, rfl, hm, hd⟩
    · rintro ⟨m', d', rest', heq, hm, hd⟩
      rw [List.cons.injEq] at heq
      obtain ⟨rfl, heq2⟩ := heq
      rw [List.cons.injEq] at heq2
      obtain ⟨rfl, -⟩ := heq2
      exact ⟨hm, hd⟩

/-- C9 (confirmed): with an active transaction `tx ≠ 0`, `commit`
sends `TRANSACTION_END` with payload `b"T\x00"`; on an `OK`
acknowledgement it returns `True`, on a remote `EAGAIN` error it
returns `False`, and in both cases `tx_id` is reset to 0. -/
theorem c9_commit_semantics (tx rq rq2 : Nat) (_h : tx ≠ 0) :
    builtPacket Op_TRANSACTION_END [[84, 0]] rq tx =
      .ok ⟨Op_TRANSACTION_END, rq, tx, 2, [84, 0]⟩ ∧
    commit tx rq ⟨Op_TRANSACTION_END, rq, tx, 3, [79, 75, 0]⟩ = (.ok true, 0) ∧
    commit tx rq2 ⟨Op_ERROR, rq2, tx, 7, [69, 65, 71, 65, 73, 78, 0]⟩ =
      (.ok false, 0) := by
  refine ⟨rfl, ?_, rfl⟩
  have hexec : execute_command Op_TRANSACTION_END [[84, 0]] tx rq
      ⟨Op_TRANSACTION_END, rq, tx, 3, [79, 75, 0]⟩ = .ok [79, 75] := by
    show (if ((7 : Nat) == 16) = true
      then Except.error (Err.xsError (errnoOf (List.dropLast [79, 75, 0])))
      else if (((7 : Nat) != 7) || (tx != tx)) = true
        then Except.error Err.unexpectedPacket
        else Except.ok (rstripNul [79, 75, 0])) = Except.ok [79, 75]
    rw [if_neg (by decide), if_neg (by simp)]
    rfl
  rw [commit, Client_ack, hexec]
  rfl

/-- Witness for C9 at `tx = 1`. -/
theorem c9_commit_semantics_witness :
    builtPacket Op_TRANSACTION_END [[84, 0]] 0 1 =
      .ok ⟨Op_TRANSACTION_END, 0, 1, 2, [84, 0]⟩ ∧
    commit 1 0 ⟨Op_TRANSACTION_END, 0, 1, 3, [79, 75, 0]⟩ = (.ok true, 0) ∧
    commit 1 0 ⟨Op_ERROR, 0, 1, 7, [69, 65, 71, 65, 73, 78, 0]⟩ =
      (.ok false, 0) :=
  c9_commit_semantics 1 0 0 (by decide)

/-- C10 counterexample: the argument `b"a\n"` contains the byte `0x0a`,
which is outside `{0} ∪ [0x20, 0x7f]`, yet `execute_command` does not
raise `ValueError` (Python's `$` matches before a single trailing
newline) — the exchange completes normally. -/
theorem c10_trailing_newline_passes :
    execute_command 0 [[97, 10]] 0 0 ⟨0, 0, 0, 0, []⟩ = .ok [] ∧
    execute_command 0 [[97, 10]] 0 0 ⟨0, 0, 0, 0, []⟩ ≠ .error .valueError ∧
    (10 ∈ [97, 10]) ∧ asciiByteOk 10 = false := by decide

/-- C10 (corrected): `execute_command` raises `ValueError` (before any
packet is constructed — the equivalence holds for every op, payload
and response) exactly when some argument fails the lenient 7-bit
check: it is empty, or contains a byte outside `{0} ∪ [0x20, 0x7f]`
other than one single trailing newline byte. -/
theorem c10_value_error_iff_lenient (op : Nat) (args : List (List Nat))
    (tx rq : Nat) (resp : Packet) :
    execute_command op args tx rq resp = .error .valueError ↔
      ∃ arg ∈ args, ¬ specArgLenientOk arg := by
  rw [execute_command, builtPacket]
  by_cases hall : args.all re7bitMatch
  · rw [hall]
    simp only [Bool.not_true, Bool.false_eq_true, if_false]
    constructor
    · intro h
      exfalso
      cases hb : Packet.build op (List.flatten args) rq tx with
      | error e =>
        rw [hb] at h
        simp only at h
        rw [Except.error.injEq] at h
        exact packetBuild_ne_valueError op _ rq tx (by rw [hb, h])
      | ok pk =>
        rw [hb] at h
        simp only at h
        split_ifs at h <;> simp at h
    · rintro ⟨arg, hmem, hbad⟩
      exact absurd ((re7bitMatch_iff arg).mp (List.all_eq_true.mp hall arg hmem))
        hbad
  · have hfalse : args.all re7bitMatch = false := by simpa using hall
    rw [hfalse]
    simp only [Bool.not_false, if_true]
    constructor
    · intro _
      obtain ⟨arg, hmem, hbad⟩ := List.all_eq_false.mp hfalse
      exact ⟨arg, hmem, fun hl => hbad ((re7bitMatch_iff arg).mpr hl)⟩
    · intro _
      trivial
